import Mathlib

/-!
Verification development for the MCP Wireshark dissector
(`src/wireshark/mcp_dissector.c`): a shallow embedding of the WebSocket
frame-header decoder (`dissect_mcp_websocket`, header part), the best-effort
JSON-RPC field extractor (`parse_json_rpc`, `extract_agent_id`), the method
catalog (`get_method_description`) and the rendering gate of
`dissect_mcp_websocket`, together with theorems settling the specification
claims about them.

The C extractor works on a NUL-terminated `wmem_strdup` copy of the payload
and temporarily mutates it (it NUL-terminates each value before copying it out
and then writes a "restore" byte).  The embedding therefore models the working
buffer as the list of payload characters followed by the terminating NUL, with
in-place writes, and carries an `oob` flag that is set whenever a scanning
loop (`strstr`/`strchr`-style) walks past the end of the allocation, which in
C would be a read beyond the captured bytes.
-/

namespace MCP

/-- The NUL terminator character of the C string buffer. -/
def nulc : Char := Char.ofNat 0

/-- Opening brace character. -/
def lbr : Char := Char.ofNat 123

/-- Closing brace character. -/
def rbr : Char := Char.ofNat 125

/-- Double-quote character. -/
def dq : Char := Char.ofNat 34

/-- Colon character. -/
def colonc : Char := Char.ofNat 58

/-- Comma character. -/
def commac : Char := Char.ofNat 44

/-- Space character. -/
def spc : Char := Char.ofNat 32

/-- Tab character. -/
def tabc : Char := Char.ofNat 9

/-- Minus character. -/
def minusc : Char := Char.ofNat 45

/-- The working buffer of `parse_json_rpc`: the `wmem_strdup` copy of the
payload (payload characters followed by the NUL terminator) plus a flag
recording whether any scan has read past the end of the allocation. -/
structure PBuf where
  mem : List Char
  oob : Bool
deriving Repr, DecidableEq

/-- Write one character at index `i` of the buffer (all writes performed by
the C code are within the allocation, so `List.set` is exact). -/
def wr (b : PBuf) (i : Nat) (c : Char) : PBuf :=
  { b with mem := b.mem.set i c }

/-- Read `*pos`: a single dereference at index `i`; a dereference past the
allocation sets the `oob` flag and yields NUL. -/
def rd1 (b : PBuf) (i : Nat) : PBuf × Char :=
  match b.mem.get? i with
  | some c => (b, c)
  | none => ({ b with oob := true }, nulc)

/-- Fuel-driven body of `strchr`: scan forward from `i` for character `c`
(`c` is never NUL in the dissector), stopping at the NUL terminator; walking
past the allocation sets the `oob` flag. -/
def chrGo (c : Char) : Nat → PBuf → Nat → PBuf × Option Nat
  | 0, b, _ => ({ b with oob := true }, none)
  | fuel + 1, b, i =>
    match b.mem.get? i with
    | none => ({ b with oob := true }, none)
    | some ch =>
      if ch = c then (b, some i)
      else if ch = nulc then (b, none)
      else chrGo c fuel b (i + 1)

/-- `strchr(pos, c)` starting at index `i`. -/
def strchrFrom (b : PBuf) (i : Nat) (c : Char) : PBuf × Option Nat :=
  chrGo c (b.mem.length + 1) b i

/-- Fuel-driven whitespace skip: `while (*pos == ' ' || *pos == '\t') pos++;`. -/
def wsGo : Nat → PBuf → Nat → PBuf × Nat
  | 0, b, i => ({ b with oob := true }, i)
  | fuel + 1, b, i =>
    match b.mem.get? i with
    | none => ({ b with oob := true }, i)
    | some ch =>
      if ch = spc ∨ ch = tabc then wsGo fuel b (i + 1) else (b, i)

/-- Skip spaces and tabs from index `i`. -/
def skipWs (b : PBuf) (i : Nat) : PBuf × Nat :=
  wsGo (b.mem.length + 1) b i

/-- Does the pattern `pat` occur at index `i` of `mem`?  A comparison reaching
past the allocation or hitting the NUL mismatches (as `strncmp`-style
comparison does on a pattern that contains no NUL). -/
def matchAt (mem : List Char) : Nat → List Char → Bool
  | _, [] => true
  | i, p :: ps =>
    match mem.get? i with
    | some ch => ch = p && matchAt mem (i + 1) ps
    | none => false

/-- Fuel-driven body of `strstr`: scan the buffer from index `i` for the
first occurrence of `pat`, stopping at the NUL terminator; walking past the
allocation (possible only once the terminator has been destroyed) sets the
`oob` flag. -/
def strstrGo (pat : List Char) : Nat → PBuf → Nat → PBuf × Option Nat
  | 0, b, _ => ({ b with oob := true }, none)
  | fuel + 1, b, i =>
    match b.mem.get? i with
    | none => ({ b with oob := true }, none)
    | some ch =>
      if ch = nulc then (b, none)
      else if matchAt b.mem i pat then (b, some i)
      else strstrGo pat fuel b (i + 1)

/-- `strstr(json_copy, pat)`: search the whole buffer from index 0. -/
def strstr (b : PBuf) (pat : String) : PBuf × Option Nat :=
  strstrGo pat.toList (b.mem.length + 1) b 0

/-- Fuel-driven balanced-brace scan of `parse_json_rpc`: starting at an
opening brace, walk while maintaining a depth counter, returning the index
one past the brace that closes the object, or the index of the NUL terminator
when the object never closes (mirroring `while (*end) { ... }`). -/
def braceGo : Nat → PBuf → Nat → Nat → PBuf × Nat
  | 0, b, i, _ => ({ b with oob := true }, i)
  | fuel + 1, b, i, depth =>
    match b.mem.get? i with
    | none => ({ b with oob := true }, i)
    | some ch =>
      if ch = nulc then (b, i)
      else if ch = lbr then braceGo fuel b (i + 1) (depth + 1)
      else if ch = rbr then
        if depth = 1 then (b, i + 1) else braceGo fuel b (i + 1) (depth - 1)
      else braceGo fuel b (i + 1) depth

/-- The balanced-brace scan started at index `i` (which holds the opening
brace) with `brace_count = 0`. -/
def braceScan (b : PBuf) (i : Nat) : PBuf × Nat :=
  braceGo (b.mem.length + 1) b i 0

/-- Fuel-driven scan of the numeric-id loop:
`while (*end && *end != ',' && *end != rbr) end++;`. -/
def idGo : Nat → PBuf → Nat → PBuf × Nat
  | 0, b, i => ({ b with oob := true }, i)
  | fuel + 1, b, i =>
    match b.mem.get? i with
    | none => ({ b with oob := true }, i)
    | some ch =>
      if ch = nulc ∨ ch = commac ∨ ch = rbr then (b, i)
      else idGo fuel b (i + 1)

/-- The numeric-id terminator scan starting at index `i`. -/
def idScan (b : PBuf) (i : Nat) : PBuf × Nat :=
  idGo (b.mem.length + 1) b i

/-- Is `c` an ASCII decimal digit (`*pos >= '0' && *pos <= '9'`)? -/
def isDig (c : Char) : Bool := 48 ≤ c.toNat && c.toNat ≤ 57

/-- Fuel-driven digit accumulation for `strtol`; returns the accumulated
value. -/
def digitsGo : Nat → PBuf → Nat → Nat → PBuf × Nat
  | 0, b, _, acc => ({ b with oob := true }, acc)
  | fuel + 1, b, i, acc =>
    match b.mem.get? i with
    | none => ({ b with oob := true }, acc)
    | some ch =>
      if isDig ch then digitsGo fuel b (i + 1) (acc * 10 + (ch.toNat - 48))
      else (b, acc)

/-- `strtol(pos, &end, 10)` at index `i` (the callers guard `*pos` to be a
minus sign or a digit, so only sign-plus-digits parsing is exercised). -/
def strtolAt (b : PBuf) (i : Nat) : PBuf × Int :=
  match b.mem.get? i with
  | none => ({ b with oob := true }, 0)
  | some ch =>
    if ch = minusc then
      let r := digitsGo (b.mem.length + 1) b (i + 1) 0
      (r.1, -(Int.ofNat r.2))
    else
      let r := digitsGo (b.mem.length + 1) b i 0
      (r.1, Int.ofNat r.2)

/-- The substring of the buffer from index `a` (inclusive) to index `e`
(exclusive): what `wmem_strdup(value_start)` copies after the value has been
NUL-terminated at `e`. -/
def substrOf (b : PBuf) (a e : Nat) : String :=
  String.mk ((b.mem.drop a).take (e - a))

/-- The shared quoted-value extraction of `parse_json_rpc`: find the key
`pat`, the colon after it, skip spaces and tabs, and if the value starts with
a double quote, take the characters up to the next double quote (temporarily
NUL-terminating at the closing quote and restoring it, exactly as the C
does). -/
def extractQuoted (b : PBuf) (pat : String) : PBuf × Option String :=
  let r := strstr b pat
  match r.2 with
  | none => (r.1, none)
  | some p =>
    let rc := strchrFrom r.1 p colonc
    match rc.2 with
    | none => (rc.1, none)
    | some cp =>
      let rw := skipWs rc.1 (cp + 1)
      let rch := rd1 rw.1 rw.2
      if rch.2 = dq then
        let re := strchrFrom rch.1 (rw.2 + 1) dq
        match re.2 with
        | none => (re.1, none)
        | some e =>
          let v := substrOf re.1 (rw.2 + 1) e
          let b1 := wr re.1 e nulc
          let b2 := wr b1 e dq
          (b2, some v)
      else (rch.1, none)

/-- The shared balanced-brace extraction of `parse_json_rpc` (used for
`ratchet_header`, `params` and `result`): find the key, the colon, skip
whitespace, and if the value starts with an opening brace run the
balanced-brace scan; when `end > value_start` the substring is stored and the
C writes a NUL at `end` and then unconditionally writes a closing brace there
(`*end = '\0'; ...; *end = rbr;` — note this is not a faithful restore of the
original character). -/
def extractBraced (b : PBuf) (pat : String) : PBuf × Option String :=
  let r := strstr b pat
  match r.2 with
  | none => (r.1, none)
  | some p =>
    let rc := strchrFrom r.1 p colonc
    match rc.2 with
    | none => (rc.1, none)
    | some cp =>
      let rw := skipWs rc.1 (cp + 1)
      let rch := rd1 rw.1 rw.2
      if rch.2 = lbr then
        let re := braceScan rch.1 rw.2
        if rw.2 < re.2 then
          let v := substrOf re.1 rw.2 re.2
          let b1 := wr re.1 re.2 nulc
          let b2 := wr b1 re.2 rbr
          (b2, some v)
        else (re.1, none)
      else (rch.1, none)

/-- The `"id"` extraction of `parse_json_rpc`: quoted values are taken like
every other string field; otherwise the numeric branch scans to a comma,
closing brace or NUL, stores the digits, writes a NUL at the terminator and
then executes `*end = (*end == ',') ? ',' : rbr;` — which reads the NUL it
has just written, so it always writes a closing brace, even over a comma or
over the string's NUL terminator. -/
def extractId (b : PBuf) : PBuf × Option String :=
  let r := strstr b "\"id\""
  match r.2 with
  | none => (r.1, none)
  | some p =>
    let rc := strchrFrom r.1 p colonc
    match rc.2 with
    | none => (rc.1, none)
    | some cp =>
      let rw := skipWs rc.1 (cp + 1)
      let rch := rd1 rw.1 rw.2
      if rch.2 = dq then
        let re := strchrFrom rch.1 (rw.2 + 1) dq
        match re.2 with
        | none => (re.1, none)
        | some e =>
          let v := substrOf re.1 (rw.2 + 1) e
          let b1 := wr re.1 e nulc
          let b2 := wr b1 e dq
          (b2, some v)
      else
        let re := idScan rch.1 rw.2
        if rw.2 < re.2 then
          let v := substrOf re.1 rw.2 re.2
          let b1 := wr re.1 re.2 nulc
          let rch2 := rd1 b1 re.2
          let b2 := wr rch2.1 re.2 (if rch2.2 = commac then commac else rbr)
          (b2, some v)
        else (re.1, none)

/-- The encryption-related output of the `"encrypted"` section of
`parse_json_rpc`. -/
structure EncResult where
  encrypted : Bool := false
  ciphertext : Option String := none
  iv : Option String := none
  ratchet_header : Option String := none
deriving Repr, DecidableEq

/-- The `"encrypted"` section of `parse_json_rpc`: only when the value after
the colon is the 4-character literal `true` does the code set the flag and
extract `ciphertext`, `iv` and `ratchet_header`. -/
def extractEnc (b : PBuf) : PBuf × EncResult :=
  let r := strstr b "\"encrypted\""
  match r.2 with
  | none => (r.1, {})
  | some p =>
    let rc := strchrFrom r.1 p colonc
    match rc.2 with
    | none => (rc.1, {})
    | some cp =>
      let rw := skipWs rc.1 (cp + 1)
      if matchAt rw.1.mem rw.2 ("true".toList) then
        let rct := extractQuoted rw.1 "\"ciphertext\""
        let riv := extractQuoted rct.1 "\"iv\""
        let rrh := extractBraced riv.1 "\"ratchet_header\""
        (rrh.1, ⟨true, rct.2, riv.2, rrh.2⟩)
      else (rw.1, {})

/-- The `"code"` section of `parse_json_rpc`: when the value after the colon
starts with a minus sign or a digit, `strtol` parses it; otherwise
`error_code` keeps its zero initialisation. -/
def extractCode (b : PBuf) : PBuf × Int :=
  let r := strstr b "\"code\""
  match r.2 with
  | none => (r.1, 0)
  | some p =>
    let rc := strchrFrom r.1 p colonc
    match rc.2 with
    | none => (rc.1, 0)
    | some cp =>
      let rw := skipWs rc.1 (cp + 1)
      let rch := rd1 rw.1 rw.2
      if rch.2 = minusc ∨ isDig rch.2 then strtolAt rch.1 rw.2
      else (rch.1, 0)

/-- `extract_agent_id`: over the already-extracted `params` C string (a fresh
NUL-terminated copy), look for the key `"agentId"` and, failing that,
`"agent_id"`; on a quoted value whose closing quote exists and whose length
`end - pos` is strictly below the 256-byte destination buffer, copy it out;
in every other case the destination stays empty. -/
def extract_agent_id (params : String) : String :=
  let b0 : PBuf := ⟨params.toList ++ [nulc], false⟩
  let r1 := strstr b0 "\"agentId\""
  let r2 :=
    match r1.2 with
    | some p => (r1.1, some p)
    | none => strstr r1.1 "\"agent_id\""
  match r2.2 with
  | none => ""
  | some p =>
    let rc := strchrFrom r2.1 p colonc
    match rc.2 with
    | none => ""
    | some cp =>
      let rw := skipWs rc.1 (cp + 1)
      let rch := rd1 rw.1 rw.2
      if rch.2 = dq then
        let re := strchrFrom rch.1 (rw.2 + 1) dq
        match re.2 with
        | none => ""
        | some e =>
          if e - (rw.2 + 1) < 256 then substrOf re.1 (rw.2 + 1) e else ""
      else ""

/-- The best-effort JSON-RPC record filled in by `parse_json_rpc`
(`mcp_json_data_t`). -/
structure MCPData where
  jsonrpc : Option String
  method : Option String
  id : Option String
  params : Option String
  result : Option String
  error_code : Int
  error_message : Option String
  agent_id : Option String
  encrypted : Bool
  ciphertext : Option String
  iv : Option String
  ratchet_header : Option String
deriving Repr, DecidableEq

/-- `parse_json_rpc(json_str, &data)`: run the field sections in the C's
order (jsonrpc, method, id, encrypted block, params with the nested
`extract_agent_id` call, result, error code, error message) over the shared
mutable buffer, and return the filled record together with the final
out-of-bounds flag of the buffer. -/
def parse_json_rpc (s : String) : MCPData × Bool :=
  let b0 : PBuf := ⟨s.toList ++ [nulc], false⟩
  let r1 := extractQuoted b0 "\"jsonrpc\""
  let r2 := extractQuoted r1.1 "\"method\""
  let r3 := extractId r2.1
  let r4 := extractEnc r3.1
  let r5 := extractBraced r4.1 "\"params\""
  let agentBuf :=
    match r5.2 with
    | some ps => extract_agent_id ps
    | none => ""
  let r6 := extractBraced r5.1 "\"result\""
  let r7 := extractCode r6.1
  let r8 := extractQuoted r7.1 "\"message\""
  (⟨r1.2, r2.2, r3.2, r5.2, r6.2, r7.2, r8.2,
    if agentBuf.length > 0 then some agentBuf else none,
    r4.2.encrypted, r4.2.ciphertext, r4.2.iv, r4.2.ratchet_header⟩,
   r8.1.oob)

/-! ### WebSocket frame-header decoder -/

/-- `tvb_get_guint8(tvb, i)`: the byte at offset `i` of the captured buffer
(reads in `decode` are guarded by explicit captured-length checks, exactly as
the C guards them). -/
def byteAt (buf : List Nat) (i : Nat) : Nat := (buf.getD i 0) % 256

/-- `tvb_get_ntohs(tvb, i)`: 16-bit big-endian read. -/
def be16 (buf : List Nat) (i : Nat) : Nat := byteAt buf i * 256 + byteAt buf (i + 1)

/-- `tvb_get_ntoh64(tvb, i)`: 64-bit big-endian read. -/
def be64 (buf : List Nat) (i : Nat) : Nat :=
  ((((((byteAt buf i * 256 + byteAt buf (i + 1)) * 256 + byteAt buf (i + 2)) * 256
    + byteAt buf (i + 3)) * 256 + byteAt buf (i + 4)) * 256 + byteAt buf (i + 5)) * 256
    + byteAt buf (i + 6)) * 256 + byteAt buf (i + 7)

/-- The decoded WebSocket frame header (the spec's `Frame` record, produced
by the header-parsing part of `dissect_mcp_websocket`).  `payload_offset`
equals `header_length` (the C variable `offset` plays both roles) and
`truncated` is the negation of the C gate
`offset + payload_len <= tvb_captured_length(tvb)` that decides whether the
payload is processed; the addition is `guint` (32-bit) arithmetic, so it is
taken modulo `2^32`. -/
structure Frame where
  fin : Bool
  opcode : Nat
  header_length : Nat
  payload_offset : Nat
  payload_length : Nat
  truncated : Bool
deriving Repr, DecidableEq

/-- Build the `Frame` for a resolved header length `offset` and payload
length `plen` over the buffer `buf`. -/
def mkFrame (buf : List Nat) (fin : Bool) (opcode offset plen : Nat) : Frame :=
  ⟨fin, opcode, offset, offset, plen,
   decide (buf.length < (offset + plen) % 2 ^ 32)⟩

/-- The frame-header decoding of `dissect_mcp_websocket` (its first part):
fail (`return 0`, i.e. `TooShort`) when fewer than 2 bytes are captured; read
`fin` from bit 7 and `opcode` from bits 0–3 of byte 0 and the 7-bit length
code from byte 1; on code 126 require 4 captured bytes and read a 16-bit
big-endian length, on code 127 require 10 captured bytes and read a 64-bit
big-endian length narrowed by the C cast `(guint32)payload_len_64`, i.e.
taken modulo `2^32`. -/
def decode (buf : List Nat) : Option Frame :=
  if buf.length < 2 then none
  else
    let fin := (byteAt buf 0 / 128) % 2 == 1
    let opcode := byteAt buf 0 % 16
    let lcode := byteAt buf 1 % 128
    if lcode = 126 then
      if buf.length < 4 then none
      else some (mkFrame buf fin opcode 4 (be16 buf 2))
    else if lcode = 127 then
      if buf.length < 10 then none
      else some (mkFrame buf fin opcode 10 (be64 buf 2 % 2 ^ 32))
    else some (mkFrame buf fin opcode 2 lcode)

/-! ### Method catalog and the rendering gate -/

/-- The `mcp_methods` table. -/
def mcp_methods : List (String × String) :=
  [("initialize", "Initialize MCP connection"),
   ("tools/list", "List available tools"),
   ("resources/list", "List available resources"),
   ("tools/call", "Call a tool"),
   ("resources/read", "Read a resource"),
   ("notifications/initialized", "Connection initialized notification"),
   ("notifications/chess/game_state", "Chess game state notification"),
   ("notifications/chess/ai_move", "AI move notification"),
   ("notifications/chess/training_progress", "Training progress notification")]

/-- The `chess_tools` table. -/
def chess_tools : List (String × String) :=
  [("create_chess_game", "Create new chess game"),
   ("make_chess_move", "Make a chess move"),
   ("get_board_state", "Get current board state"),
   ("analyze_position", "Analyze chess position"),
   ("get_legal_moves", "Get legal moves"),
   ("get_move_hint", "Get move hint"),
   ("create_tournament", "Create tournament"),
   ("get_tournament_status", "Get tournament status")]

/-- The `chess_resources` table. -/
def chess_resources : List (String × String) :=
  [("chess://ai-systems", "AI systems information"),
   ("chess://opening-book", "Opening book database"),
   ("chess://game-history", "Game history"),
   ("chess://training-data", "Training data"),
   ("chess://performance-metrics", "Performance metrics")]

/-- Linear first-match lookup in one table. -/
def lookupTable (t : List (String × String)) (m : String) : Option String :=
  match t with
  | [] => none
  | (k, d) :: rest => if m = k then some d else lookupTable rest m

/-- `get_method_description`: scan the three tables in order and return the
first matching description. -/
def get_method_description (m : String) : Option String :=
  match lookupTable mcp_methods m with
  | some d => some d
  | none =>
    match lookupTable chess_tools m with
    | some d => some d
    | none => lookupTable chess_resources m

/-- One field emitted into the MCP protocol subtree by
`dissect_mcp_websocket` (lines 280–334 of the C). -/
inductive MCPField where
  | versionF (v : String)
  | methodF (m : String) (desc : Option String)
  | idF (v : String)
  | encryptedF
  | ciphertextF (v : String)
  | ivF (v : String)
  | ratchetF (v : String)
  | paramsF (v : String)
  | resultF (v : String)
  | errorCodeF (c : Int)
  | errorMessageF (v : String)
  | agentIdF (v : String)
deriving Repr, DecidableEq

/-- One write into the protocol/info summary columns by
`dissect_mcp_websocket` (lines 336–348 of the C). -/
inductive InfoPart where
  | protoMCP
  | mcpMethod (m : String)
  | encryptedTag
  | errorTag (c : Int)
deriving Repr, DecidableEq

/-- The subtree fields emitted for a parsed record (inside the version
gate), in the order the C adds them. -/
def fieldsOf (d : MCPData) : List MCPField :=
  (match d.jsonrpc with | some v => [.versionF v] | none => []) ++
  (match d.method with | some m => [.methodF m (get_method_description m)] | none => []) ++
  (match d.id with | some v => [.idF v] | none => []) ++
  (if d.encrypted then
    [.encryptedF] ++
    (match d.ciphertext with | some v => [.ciphertextF v] | none => []) ++
    (match d.iv with | some v => [.ivF v] | none => []) ++
    (match d.ratchet_header with | some v => [.ratchetF v] | none => [])
  else []) ++
  (match d.params with | some v => [.paramsF v] | none => []) ++
  (match d.result with | some v => [.resultF v] | none => []) ++
  (if d.error_code ≠ 0 then [.errorCodeF d.error_code] else []) ++
  (match d.error_message with | some v => [.errorMessageF v] | none => []) ++
  (match d.agent_id with | some v => [.agentIdF v] | none => [])

/-- The column writes for a parsed record (inside the version gate): the
protocol column is set to MCP, the info line gets the method summary (with
the encrypted tag nested under it) and the error tag when the code is
nonzero. -/
def infoOf (d : MCPData) : List InfoPart :=
  [.protoMCP] ++
  (match d.method with
   | some m => [.mcpMethod m] ++ (if d.encrypted then [.encryptedTag] else [])
   | none => []) ++
  (if d.error_code ≠ 0 then [.errorTag d.error_code] else [])

/-- The text-frame processing of `dissect_mcp_websocket` (lines 272–353):
parse the payload and, only when the extracted `jsonrpc` is exactly the
string 2.0, emit the MCP subtree fields and the column writes; otherwise
emit nothing. -/
def dissectText (payload : String) : List MCPField × List InfoPart :=
  let d := (parse_json_rpc payload).1
  if d.jsonrpc = some "2.0" then (fieldsOf d, infoOf d) else ([], [])

/-! ### Helper lemmas -/

/-- The copied-out substring is no longer than the index distance that the C
guard compares against the destination size. -/
theorem substrOf_length_le (b : PBuf) (a e : Nat) : (substrOf b a e).length ≤ e - a := by
  simp only [substrOf, String.length, List.length_take]
  exact Nat.min_le_left _ _

/-- `extract_agent_id` never produces 256 or more characters: the copy is
guarded by `end - pos < sizeof(agent_id)`. -/
theorem extract_agent_id_length_lt (p : String) : (extract_agent_id p).length < 256 := by
  simp only [extract_agent_id]
  repeat' split
  all_goals first
    | decide
    | exact lt_of_le_of_lt (substrOf_length_le _ _ _) (by simp_all)

/-- The encrypted section either leaves the whole encryption sub-record at
its zero initialisation or sets the flag to true. -/
theorem extractEnc_cases (b : PBuf) :
    (extractEnc b).2 = {} ∨ (extractEnc b).2.encrypted = true := by
  simp only [extractEnc]
  repeat' split
  all_goals simp

/-- If the encrypted flag came out false, the whole encryption sub-record is
still its zero initialisation. -/
theorem extractEnc_not (b : PBuf) (h : (extractEnc b).2.encrypted = false) :
    (extractEnc b).2 = {} := by
  rcases extractEnc_cases b with h1 | h1
  · exact h1
  · rw [h1] at h
    cases h

/-- The agent-id assignment of `parse_json_rpc`, rephrased as a bind over the
extracted `params`. -/
theorem agent_bind (o : Option String) :
    (if (match o with | some ps => extract_agent_id ps | none => "").length > 0
     then some (match o with | some ps => extract_agent_id ps | none => "")
     else none) =
    o.bind (fun p =>
      if (extract_agent_id p).length > 0 then some (extract_agent_id p) else none) := by
  cases o <;> simp

/-- A populated agent id is nonempty and strictly shorter than the 256-byte
destination buffer. -/
theorem agent_opt_len (o : Option String) (v : String)
    (h : (if (match o with | some ps => extract_agent_id ps | none => "").length > 0
          then some (match o with | some ps => extract_agent_id ps | none => "")
          else none) = some v) : 0 < v.length ∧ v.length < 256 := by
  cases o with
  | none => simp at h
  | some ps =>
    dsimp only at h
    split at h
    · rename_i hl
      injection h with h2
      subst h2
      exact ⟨hl, extract_agent_id_length_lt ps⟩
    · cases h

/-- Evaluation of `decode` on the 2-byte-header branch. -/
theorem decode_eq_2 (buf : List Nat) (h2 : ¬ buf.length < 2)
    (h126 : ¬ byteAt buf 1 % 128 = 126) (h127 : ¬ byteAt buf 1 % 128 = 127) :
    decode buf = some (mkFrame buf ((byteAt buf 0 / 128) % 2 == 1)
      (byteAt buf 0 % 16) 2 (byteAt buf 1 % 128)) := by
  simp only [decode]
  rw [if_neg h2, if_neg h126, if_neg h127]

/-- Evaluation of `decode` on the 16-bit-length branch. -/
theorem decode_eq_126 (buf : List Nat) (h2 : ¬ buf.length < 2)
    (h126 : byteAt buf 1 % 128 = 126) (h4 : ¬ buf.length < 4) :
    decode buf = some (mkFrame buf ((byteAt buf 0 / 128) % 2 == 1)
      (byteAt buf 0 % 16) 4 (be16 buf 2)) := by
  simp only [decode]
  rw [if_neg h2, if_pos h126, if_neg h4]

/-- Evaluation of `decode` on the 64-bit-length branch. -/
theorem decode_eq_127 (buf : List Nat) (h2 : ¬ buf.length < 2)
    (h126 : ¬ byteAt buf 1 % 128 = 126) (h127 : byteAt buf 1 % 128 = 127)
    (h10 : ¬ buf.length < 10) :
    decode buf = some (mkFrame buf ((byteAt buf 0 / 128) % 2 == 1)
      (byteAt buf 0 % 16) 10 (be64 buf 2 % 2 ^ 32)) := by
  simp only [decode]
  rw [if_neg h2, if_neg h126, if_pos h127, if_neg h10]

/-! ### Claim theorems -/

/-- Claim C2 (code evaluated at the failing input): on the unterminated
object text `"params":{"a":1` the extractor does NOT leave `params` unset —
it stores the unclosed remainder — and, having overwritten the string's NUL
terminator with a closing brace, the subsequent key scans run past the end of
the payload copy (the out-of-bounds flag is set). -/
theorem c2_unterminated_params_sets_prefix :
    (parse_json_rpc "\"params\":\x7b\"a\":1").1.params = some "\x7b\"a\":1" ∧
    (parse_json_rpc "\"params\":\x7b\"a\":1").2 = true := by decide

/-- Claim C3 (code evaluated at the failing input): field extraction is not
independent.  On `{"params":{"id":7,"agentId":"x"}}` the numeric-id epilogue
`*end = (*end == ',') ? ',' : '}'` reads the NUL it has just written and so
replaces the comma after `7` with a closing brace; the later `params` scan
then closes early, yielding `{"id":7}` instead of the full object, and the
agent id inside `params` is lost. -/
theorem c3_id_restore_corrupts_params :
    (parse_json_rpc "\x7b\"params\":\x7b\"id\":7,\"agentId\":\"x\"\x7d\x7d").1.id = some "7" ∧
    (parse_json_rpc "\x7b\"params\":\x7b\"id\":7,\"agentId\":\"x\"\x7d\x7d").1.params =
      some "\x7b\"id\":7\x7d" ∧
    (parse_json_rpc "\x7b\"params\":\x7b\"id\":7,\"agentId\":\"x\"\x7d\x7d").1.agent_id =
      none := by decide

/-- Claim C4: `ciphertext`, `iv` and `ratchet_header` are populated only when
the extracted `encrypted` flag is true; whenever the flag comes out false
(key absent, or value not the literal `true`) all three stay unset. -/
theorem c4_encryption_gating (s : String) (h : (parse_json_rpc s).1.encrypted = false) :
    (parse_json_rpc s).1.ciphertext = none ∧
    (parse_json_rpc s).1.iv = none ∧
    (parse_json_rpc s).1.ratchet_header = none := by
  simp only [parse_json_rpc] at h ⊢
  rw [extractEnc_not _ h]
  exact ⟨rfl, rfl, rfl⟩

/-- Witness for C4 at the spec's own edge case
`"encrypted":false,"ciphertext":"xyz"`. -/
theorem c4_encryption_gating_witness :
    (parse_json_rpc "\"encrypted\":false,\"ciphertext\":\"xyz\"").1.ciphertext = none ∧
    (parse_json_rpc "\"encrypted\":false,\"ciphertext\":\"xyz\"").1.iv = none ∧
    (parse_json_rpc "\"encrypted\":false,\"ciphertext\":\"xyz\"").1.ratchet_header = none :=
  c4_encryption_gating "\"encrypted\":false,\"ciphertext\":\"xyz\"" (by decide)

/-- Claim C7: the agent id is derived exclusively from the already-extracted
`params` substring (so it is unset whenever `params` is unset); the key
`"agentId"` is tried before `"agent_id"`; and an agent identifier outside
`params` is never picked up. -/
theorem c7_agent_id_from_params :
    (∀ s, (parse_json_rpc s).1.agent_id =
      ((parse_json_rpc s).1.params).bind (fun p =>
        if (extract_agent_id p).length > 0 then some (extract_agent_id p) else none)) ∧
    extract_agent_id "\x7b\"agent_id\":\"a\",\"agentId\":\"b\"\x7d" = "b" ∧
    (parse_json_rpc "\x7b\"agentId\":\"z\",\"params\":\x7b\"a\":1\x7d\x7d").1.agent_id = none := by
  refine ⟨fun s => ?_, by decide, by decide⟩
  simp only [parse_json_rpc]
  exact agent_bind _

/-- Claim C8 (code evaluated at the failing input): scanning is NOT
out-of-bounds-safe by construction.  On the payload `{"jsonrpc":"2.0","id":1`
the numeric-id epilogue writes a closing brace over the NUL terminator of the
payload copy, after which the remaining key scans walk past the end of the
allocation (the out-of-bounds flag is set). -/
theorem c8_nul_overwrite_oob :
    (parse_json_rpc "\x7b\"jsonrpc\":\"2.0\",\"id\":1").2 = true ∧
    (parse_json_rpc "\x7b\"jsonrpc\":\"2.0\",\"id\":1").1.id = some "1" := by decide

/-- Claim C10: a populated agent id is nonempty and strictly shorter than 256
characters (the size of the C destination buffer); longer or empty values
leave the field unset. -/
theorem c10_agent_id_length (s : String) (v : String)
    (h : (parse_json_rpc s).1.agent_id = some v) : 0 < v.length ∧ v.length < 256 := by
  simp only [parse_json_rpc] at h
  exact agent_opt_len _ v h

/-- Witness for C10 at a payload whose params carry a 3-character agent id. -/
theorem c10_agent_id_length_witness : 0 < "bot".length ∧ "bot".length < 256 :=
  c10_agent_id_length "\x7b\"params\":\x7b\"agentId\":\"bot\"\x7d\x7d" "bot" (by decide)

/-- Claim C1 (amended): once the header bytes demanded by the length code are
captured, decoding never fails, and a frame whose declared payload extends
past the captured bytes carries `truncated = true` — provided the 32-bit sum
`payload_offset + payload_length` does not wrap modulo `2^32` (the C computes
the completeness gate in `guint` arithmetic). -/
theorem c1_truncated_marker :
    (∀ buf : List Nat, 2 ≤ buf.length →
      (byteAt buf 1 % 128 = 126 → 4 ≤ buf.length) →
      (byteAt buf 1 % 128 = 127 → 10 ≤ buf.length) →
      ∃ f, decode buf = some f) ∧
    (∀ (buf : List Nat) (f : Frame), decode buf = some f →
      buf.length < f.payload_offset + f.payload_length →
      f.payload_offset + f.payload_length < 2 ^ 32 →
      f.truncated = true) := by
  constructor
  · intro buf h2 h126 h127
    have h2' : ¬ buf.length < 2 := by omega
    by_cases hc : byteAt buf 1 % 128 = 126
    · have h4' : ¬ buf.length < 4 := by have := h126 hc; omega
      exact ⟨_, decode_eq_126 buf h2' hc h4'⟩
    · by_cases hc7 : byteAt buf 1 % 128 = 127
      · have h10' : ¬ buf.length < 10 := by have := h127 hc7; omega
        exact ⟨_, decode_eq_127 buf h2' hc hc7 h10'⟩
      · exact ⟨_, decode_eq_2 buf h2' hc hc7⟩
  · intro buf f h hlt h32
    simp only [decode] at h
    split at h
    · cases h
    · split at h
      · split at h
        · cases h
        · cases h
          simp only [mkFrame] at hlt h32 ⊢
          rw [Nat.mod_eq_of_lt h32]
          simpa using hlt
      · split at h
        · split at h
          · cases h
          · cases h
            simp only [mkFrame] at hlt h32 ⊢
            rw [Nat.mod_eq_of_lt h32]
            simpa using hlt
        · cases h
          simp only [mkFrame] at hlt h32 ⊢
          rw [Nat.mod_eq_of_lt h32]
          simpa using hlt

/-- Witness for C1 at a 2-byte buffer declaring a 5-byte payload (header
complete, body absent): decoding succeeds and the frame
`⟨fin, opcode, 2, 2, 5⟩` it returns is marked truncated. -/
theorem c1_truncated_marker_witness :
    (∃ f, decode [129, 5] = some f) ∧
    (Frame.mk true 1 2 2 5 true).truncated = true :=
  ⟨c1_truncated_marker.1 [129, 5] (by decide) (by decide) (by decide),
   c1_truncated_marker.2 [129, 5] (Frame.mk true 1 2 2 5 true)
     (by decide) (by decide) (by decide)⟩

/-- Counterexample to C1 as stated: a 10-byte capture declaring a 64-bit
payload length of `0xFFFFFFF7` wraps the `guint` sum
`offset + payload_len = 2^32 + 1` to `1 <= 10`, so the code treats the frame
as complete and the claimed `truncated = true` marker is absent although the
declared payload far exceeds the available bytes. -/
theorem c1_truncated_wrap_cex :
    decode [129, 255, 0, 0, 0, 0, 255, 255, 255, 247] =
      some (Frame.mk true 1 10 10 4294967287 false) ∧
    10 + 4294967287 > (10 : Nat) := by decide

/-- Claim C5: buffers shorter than 2 bytes fail to decode; a 7-bit length
code of at most 125 yields a 2-byte header with that payload length; and a
length code 126 followed by the big-endian bytes 1, 0 yields payload length
256 with a 4-byte header. -/
theorem c5_header_lengths :
    (∀ buf : List Nat, buf.length < 2 → decode buf = none) ∧
    (∀ buf : List Nat, 2 ≤ buf.length → byteAt buf 1 % 128 ≤ 125 →
      ∃ f, decode buf = some f ∧ f.header_length = 2 ∧
        f.payload_length = byteAt buf 1 % 128) ∧
    (∀ buf : List Nat, 4 ≤ buf.length → byteAt buf 1 % 128 = 126 →
      byteAt buf 2 = 1 → byteAt buf 3 = 0 →
      ∃ f, decode buf = some f ∧ f.payload_length = 256 ∧ f.header_length = 4) := by
  refine ⟨?_, ?_, ?_⟩
  · intro buf h
    simp only [decode]
    rw [if_pos h]
  · intro buf h2 hL
    have h2' : ¬ buf.length < 2 := by omega
    have h126 : ¬ byteAt buf 1 % 128 = 126 := by omega
    have h127 : ¬ byteAt buf 1 % 128 = 127 := by omega
    exact ⟨_, decode_eq_2 buf h2' h126 h127, rfl, rfl⟩
  · intro buf h4 hL h1 h0
    have h2' : ¬ buf.length < 2 := by omega
    have h4' : ¬ buf.length < 4 := by omega
    refine ⟨_, decode_eq_126 buf h2' hL h4', ?_, rfl⟩
    simp only [mkFrame, be16, h1, h0]

/-- Witness for C5 at a 1-byte buffer, a minimal 2-byte header with length
code 5, and the header `81 FE 01 00`. -/
theorem c5_header_lengths_witness :
    decode [129] = none ∧
    (∃ f, decode [129, 5] = some f ∧ f.header_length = 2 ∧
      f.payload_length = byteAt [129, 5] 1 % 128) ∧
    (∃ f, decode [129, 254, 1, 0] = some f ∧ f.payload_length = 256 ∧
      f.header_length = 4) :=
  ⟨c5_header_lengths.1 [129] (by decide),
   c5_header_lengths.2.1 [129, 5] (by decide) (by decide),
   c5_header_lengths.2.2 [129, 254, 1, 0] (by decide) (by decide) (by decide) (by decide)⟩

/-- Claim C6 (amended): with length code 127 and at least 10 captured bytes,
the next 8 bytes are read as a big-endian 64-bit length and narrowed to the
32-bit `payload_length` by the cast `(guint32)payload_len_64`, i.e. taken
modulo `2^32` (a silent wrap — no panic, but no saturation and no explicit
failure either); with fewer than 10 bytes the decode fails as `TooShort`. -/
theorem c6_len127_wraps :
    (∀ buf : List Nat, byteAt buf 1 % 128 = 127 → 10 ≤ buf.length →
      ∃ f, decode buf = some f ∧ f.header_length = 10 ∧
        f.payload_length = be64 buf 2 % 2 ^ 32) ∧
    (∀ buf : List Nat, byteAt buf 1 % 128 = 127 → buf.length < 10 →
      decode buf = none) := by
  constructor
  · intro buf h7 h10
    have h2' : ¬ buf.length < 2 := by omega
    have h10' : ¬ buf.length < 10 := by omega
    have h126 : ¬ byteAt buf 1 % 128 = 126 := by omega
    exact ⟨_, decode_eq_127 buf h2' h126 h7 h10', rfl, rfl⟩
  · intro buf h7 hlt
    by_cases h2 : buf.length < 2
    · simp only [decode]
      rw [if_pos h2]
    · have h126 : ¬ byteAt buf 1 % 128 = 126 := by omega
      simp only [decode]
      rw [if_neg h2, if_neg h126, if_pos h7, if_pos hlt]

/-- Witness for C6 at the header `81 FF` followed by the 64-bit big-endian
encoding of 300 (the spec's §8 example), and at a 5-byte capture that is too
short for the extended length. -/
theorem c6_len127_wraps_witness :
    (∃ f, decode [129, 255, 0, 0, 0, 0, 0, 0, 1, 44] = some f ∧
      f.header_length = 10 ∧
      f.payload_length = be64 [129, 255, 0, 0, 0, 0, 0, 0, 1, 44] 2 % 2 ^ 32) ∧
    decode [129, 255, 0, 0, 0] = none :=
  ⟨c6_len127_wraps.1 [129, 255, 0, 0, 0, 0, 0, 0, 1, 44] (by decide) (by decide),
   c6_len127_wraps.2 [129, 255, 0, 0, 0] (by decide) (by decide)⟩

/-- Counterexample to C6 as stated: the 64-bit declared length `2^32 + 5` is
narrowed to 5 — the decoder neither fails explicitly nor saturates to
`2^32 - 1`; it silently wraps. -/
theorem c6_silent_wrap_cex :
    decode [129, 255, 0, 0, 0, 1, 0, 0, 0, 5] =
      some (Frame.mk true 1 10 10 5 true) ∧
    be64 [129, 255, 0, 0, 0, 1, 0, 0, 0, 5] 2 = 4294967301 ∧
    (5 : Nat) ≠ 2 ^ 32 - 1 := by decide

/-- Claim C9: unless the extracted `jsonrpc` is exactly the string 2.0, the
dissector emits no MCP subtree fields and writes nothing to the protocol or
info columns — even though the extractor records the version value as-is
(here a payload with version 1.0). -/
theorem c9_version_gate :
    (∀ s, (parse_json_rpc s).1.jsonrpc ≠ some "2.0" → dissectText s = ([], [])) ∧
    (parse_json_rpc "\x7b\"jsonrpc\":\"1.0\",\"method\":\"initialize\"\x7d").1.jsonrpc =
      some "1.0" ∧
    dissectText "\x7b\"jsonrpc\":\"1.0\",\"method\":\"initialize\"\x7d" = ([], []) := by
  refine ⟨fun s h => ?_, by decide, by decide⟩
  simp only [dissectText]
  rw [if_neg h]

/-- Witness for C9 at the version-1.0 payload. -/
theorem c9_version_gate_witness :
    dissectText "\x7b\"jsonrpc\":\"1.0\",\"method\":\"tools/list\"\x7d" = ([], []) :=
  c9_version_gate.1 "\x7b\"jsonrpc\":\"1.0\",\"method\":\"tools/list\"\x7d" (by decide)

end MCP
